import Mathlib

/-
Verification development for the biomarker-extraction engine of the Jiva
health-report backend (backend/app/services/nlp_service.py).

The Python service is shallowly embedded as executable Lean functions over
List Char / String, with Python floats modelled by exact rationals, the
regular-expression patterns modelled by an explicit backtracking matcher
with Python re semantics (leftmost match, ordered alternation, greedy and
lazy quantifiers, capture groups, IGNORECASE folded through ASCII
lowercasing), and datetime.now() passed explicitly as a parameter.
-/

/-
Batteries marks the arithmetic of Rat irreducible, which only hinders the
elaborator when decide evaluates the embedded service on concrete inputs;
restoring the default reducibility lets those evaluations run.  This has no
effect on soundness: the kernel never consults reducibility attributes.
-/
set_option allowUnsafeReducibility true
attribute [semireducible] Rat.add Rat.mul Rat.sub Rat.inv Rat.div Rat.ofScientific

-- ===== character helpers =====

theorem char_toNat_inj {a b : Char} (h : a.toNat = b.toNat) : a = b :=
  Char.eq_of_val_eq (UInt32.ext h)

/-- Value of Char.toLower on the code points: codes 65 to 90 (A-Z) are
shifted by 32, everything else is unchanged.  Char.toLower is the model of
Python str.lower restricted to ASCII, which is the alphabet the service's
patterns and cleaning rules operate on. -/
theorem toNat_toLower (c : Char) :
    (Char.toLower c).toNat = if 65 ≤ c.toNat ∧ c.toNat ≤ 90 then c.toNat + 32 else c.toNat := by
  unfold Char.toLower
  split
  · next h =>
    rw [if_pos (by omega)]
    have hv : Nat.isValidChar (c.toNat + 32) := Or.inl (by omega)
    rw [Char.ofNat, dif_pos hv]
    rfl
  · next h =>
    rw [if_neg (by omega)]

theorem toLower_idem (c : Char) : Char.toLower (Char.toLower c) = Char.toLower c := by
  apply char_toNat_inj
  rw [toNat_toLower, toNat_toLower]
  split <;> (try split) <;> omega

/-- Whitespace characters matched by the regex class \s in the ASCII range:
space (32), tab (9), newline (10), carriage return (13), vertical tab (11),
form feed (12). -/
def isWsChar (c : Char) : Bool :=
  decide (c.toNat = 32 ∨ c.toNat = 9 ∨ c.toNat = 10 ∨ c.toNat = 13 ∨ c.toNat = 11 ∨ c.toNat = 12)

theorem isWsChar_toLower (c : Char) : isWsChar (Char.toLower c) = isWsChar c := by
  simp only [isWsChar, toNat_toLower]
  split <;> [skip; rfl]
  next h => simp only [decide_eq_decide]; omega

-- ===== list-of-characters helpers =====

/-- Does pat occur at the very start of the second list. -/
def startsWithL : List Char → List Char → Bool
  | [], _ => true
  | _ :: _, [] => false
  | p :: ps, c :: cs => p == c && startsWithL ps cs

/-- Python substring containment (the in operator on str). -/
def hasSub (pat : List Char) : List Char → Bool
  | [] => startsWithL pat []
  | c :: cs => startsWithL pat (c :: cs) || hasSub pat cs

/-- State machine for re.sub replacing every \s+ run by a single space (the
whitespace-collapsing step of _clean_text); the Bool records whether the
previous character was inside a whitespace run. -/
def collapseGo : Bool → List Char → List Char
  | _, [] => []
  | inRun, c :: cs =>
    if isWsChar c then
      if inRun then collapseGo true cs else ' ' :: collapseGo true cs
    else c :: collapseGo false cs

def collapseWs (l : List Char) : List Char := collapseGo false l

/-- Python str.replace scanning left to right and replacing every
non-overlapping occurrence; the Nat counts characters of a matched
occurrence that remain to be skipped. -/
def replaceGo (pat rep : List Char) : Nat → List Char → List Char
  | _, [] => []
  | 0, c :: cs =>
    if startsWithL pat (c :: cs) && !pat.isEmpty then
      rep ++ replaceGo pat rep (pat.length - 1) cs
    else
      c :: replaceGo pat rep 0 cs
  | n + 1, _ :: cs => replaceGo pat rep n cs

def replaceAll (pat rep l : List Char) : List Char := replaceGo pat rep 0 l

/-- Python str.strip: drop whitespace from both ends. -/
def stripL (l : List Char) : List Char :=
  ((l.dropWhile isWsChar).reverse.dropWhile isWsChar).reverse

/-- Specification predicate used by the idempotence analysis of the text
normalizer: every whitespace character of the list is a plain space and no
two whitespace characters are adjacent, which is the shape the
whitespace-collapsing pass produces. -/
def wsSep : List Char → Bool
  | [] => true
  | [c] => !isWsChar c || c == ' '
  | c :: c2 :: cs => (!isWsChar c || (c == ' ' && !isWsChar c2)) && wsSep (c2 :: cs)

-- ===== _clean_text =====

/-- The replacement table of _clean_text, applied in the source's dict
insertion order: o to 0, i to 1, l to 1, mg% to mg/dl, gm% to g/dl,
gm/dl to g/dl. -/
def cleanReplacements : List (List Char × List Char) :=
  [("o".data, "0".data), ("i".data, "1".data), ("l".data, "1".data),
   ("mg%".data, "mg/dl".data), ("gm%".data, "g/dl".data), ("gm/dl".data, "g/dl".data)]

def applyReplacements : List (List Char × List Char) → List Char → List Char
  | [], l => l
  | (pat, rep) :: rest, l => applyReplacements rest (replaceAll pat rep l)

/-- Model of NLPService._clean_text: lowercase, collapse whitespace runs to a
single space, then apply the OCR replacement table in order. -/
def cleanL (l : List Char) : List Char :=
  applyReplacements cleanReplacements (collapseWs (l.map Char.toLower))

def _clean_text (s : String) : String := String.mk (cleanL s.data)

-- ===== regular-expression engine (Python re semantics) =====

/-- Character classes appearing in the service's patterns. -/
inductive RxCls where
  | digit
  | space
  | dot
  | dashSlash
deriving DecidableEq

/-- Membership of a character in a class: \d, \s, the dot (anything except a
newline), and the class of a dash or slash used by the date patterns. -/
def RxCls.memC : RxCls → Char → Bool
  | .digit, c => c.isDigit
  | .space, c => isWsChar c
  | .dot, c => c != '\n'
  | .dashSlash, c => c == '-' || c == '/'

/-- Abstract syntax of the regular expressions used by the service: literal
characters, classes, concatenation, ordered alternation, greedy and lazy
star, optional, numbered capture groups, and the end-of-line anchor that
appears (under re.MULTILINE) in the facility patterns. -/
inductive Rx where
  | eps
  | ch (c : Char)
  | cls (cl : RxCls)
  | seq (a b : Rx)
  | alt (a b : Rx)
  | star (greedy : Bool) (a : Rx)
  | opt (greedy : Bool) (a : Rx)
  | group (idx : Nat) (a : Rx)
  | eol

/-- Capture environment: group index paired with the captured characters;
the most recent capture of a group is first. -/
abbrev Caps := List (Nat × List Char)

/-- Backtracking matcher in continuation style, reproducing Python re
backtracking order: alternation tries the left branch first, a greedy
quantifier tries to consume first, a lazy one tries the continuation first.
Literal characters compare against the lowercased input character, which is
how the service's re.IGNORECASE flag behaves on its all-lowercase patterns
over the ASCII range.  The fuel only bounds the recursion; every use below
supplies more fuel than any run can consume. -/
def mrun {α : Type} : Nat → Rx → List Char → Caps → (List Char → Caps → Option α) → Option α
  | 0, _, _, _, _ => none
  | fuel + 1, r, s, caps, k =>
    match r with
    | .eps => k s caps
    | .ch c =>
      match s with
      | [] => none
      | d :: rest => if Char.toLower d == c then k rest caps else none
    | .cls cl =>
      match s with
      | [] => none
      | d :: rest => if cl.memC d then k rest caps else none
    | .seq a b => mrun fuel a s caps (fun s2 c2 => mrun fuel b s2 c2 k)
    | .alt a b =>
      match mrun fuel a s caps k with
      | some x => some x
      | none => mrun fuel b s caps k
    | .star greedy a =>
      if greedy then
        match mrun fuel a s caps (fun s2 c2 => mrun fuel (.star true a) s2 c2 k) with
        | some x => some x
        | none => k s caps
      else
        match k s caps with
        | some x => some x
        | none => mrun fuel a s caps (fun s2 c2 => mrun fuel (.star false a) s2 c2 k)
    | .opt greedy a =>
      if greedy then
        match mrun fuel a s caps k with
        | some x => some x
        | none => k s caps
      else
        match k s caps with
        | some x => some x
        | none => mrun fuel a s caps k
    | .group n a =>
      mrun fuel a s caps (fun s2 c2 => k s2 ((n, s.take (s.length - s2.length)) :: c2))
    | .eol => if s.isEmpty || s.head? == some '\n' then k s caps else none

/-- Fuel bound that is ample for every pattern of the service on the given
text (matcher steps are bounded far below this for the patterns at hand). -/
def mfuel (t : List Char) : Nat := (t.length + 2) * (t.length + 2) * 400

/-- Python re.search: try a match at each position from the left, returning
the captures of the leftmost match together with the rest of the input
after the match end. -/
def rsearchA (fuel : Nat) (r : Rx) : List Char → Option (Caps × List Char)
  | [] => mrun fuel r [] [] (fun rest caps => some (caps, rest))
  | c :: cs =>
    match mrun fuel r (c :: cs) [] (fun rest caps => some (caps, rest)) with
    | some x => some x
    | none => rsearchA fuel r cs

/-- Python re.finditer: all non-overlapping matches from left to right, each
search resuming after the end of the previous match.  The first Nat bounds
the number of matches (the service's patterns never match an empty string,
so text length plus one suffices). -/
def finditerL : Nat → Nat → Rx → List Char → List Caps
  | 0, _, _, _ => []
  | n + 1, fuel, r, s =>
    match rsearchA fuel r s with
    | none => []
    | some (caps, rest) => caps :: finditerL n fuel r rest

/-- Content of group n in a match (empty when the group did not
participate, which for the patterns below can only happen to the optional
mmhg group that the extractor never reads). -/
def capGet (caps : Caps) (n : Nat) : List Char :=
  ((caps.find? (fun pr => pr.1 == n)).map Prod.snd).getD []

/-- Number of capture groups of a pattern, the model of len(match.groups())
which Python computes from the pattern, not from the match. -/
def groupCount : Rx → Nat
  | .seq a b => groupCount a + groupCount b
  | .alt a b => groupCount a + groupCount b
  | .star _ a => groupCount a
  | .opt _ a => groupCount a
  | .group _ a => 1 + groupCount a
  | _ => 0

-- ===== pattern combinators =====

/-- A literal string pattern. -/
def rstr (s : String) : Rx := s.data.foldr (fun c acc => Rx.seq (Rx.ch c) acc) Rx.eps

def rseq (l : List Rx) : Rx := l.foldr Rx.seq Rx.eps

/-- Ordered alternation of a nonempty list of alternatives. -/
def ralts : List Rx → Rx
  | [] => Rx.eps
  | [r] => r
  | r :: rs => Rx.alt r (ralts rs)

/-- The pattern \s* of zero-or-more whitespace. -/
def ws0 : Rx := Rx.star true (Rx.cls RxCls.space)

/-- The pattern \s+ of one-or-more whitespace. -/
def ws1 : Rx := Rx.seq (Rx.cls RxCls.space) ws0

/-- The pattern :? of an optional colon. -/
def colonOpt : Rx := Rx.opt true (Rx.ch ':')

/-- The pattern \d+ of one-or-more digits. -/
def dplus : Rx := Rx.seq (Rx.cls RxCls.digit) (Rx.star true (Rx.cls RxCls.digit))

/-- Capture group 1 holding a numeric value, written in the source patterns
as a group of one-or-more digits, an optional dot, and zero-or-more digits. -/
def numGroup : Rx :=
  Rx.group 1 (rseq [dplus, Rx.opt true (Rx.ch '.'), Rx.star true (Rx.cls RxCls.digit)])

/-- Literal words joined by \s*, as the source patterns write multiword
names such as blood\s*sugar. -/
def wordsRx : List String → Rx
  | [] => Rx.eps
  | [w] => rstr w
  | w :: ws => Rx.seq (rstr w) (Rx.seq ws0 (wordsRx ws))

/-- The shape shared by every standard biomarker pattern: name words, \s*,
an optional colon, \s*, the value group, \s*, and capture group 2 holding
one of the listed unit spellings. -/
def stdPat (words : List String) (units : List String) : Rx :=
  rseq [wordsRx words, ws0, colonOpt, ws0, numGroup, ws0,
        Rx.group 2 (ralts (units.map rstr))]

/-- The shape of the hematocrit patterns: as stdPat but the unit is a bare
percent sign outside any group, so the pattern has a single group. -/
def pctPat (words : List String) : Rx :=
  rseq [wordsRx words, ws0, colonOpt, ws0, numGroup, ws0, Rx.ch '%']

/-- The shape of the two blood-pressure patterns: name words, optional
colon, group 1 systolic digits, a slash, group 2 diastolic digits, \s*, and
an optional group 3 with the literal mmhg. -/
def bpPat (words : List String) : Rx :=
  rseq [wordsRx words, ws0, colonOpt, ws0, Rx.group 1 dplus, Rx.ch '/',
        Rx.group 2 dplus, ws0, Rx.opt true (Rx.group 3 (rstr "mmhg"))]

-- ===== numeric parsing and rounding =====

def digitsVal (l : List Char) : Nat :=
  l.foldl (fun acc c => acc * 10 + (c.toNat - 48)) 0

/-- Model of Python float() on the strings produced by the numeric capture
groups, which are always one-or-more digits, an optional dot, and
zero-or-more digits; on any other shape the model returns none, as float()
raises ValueError on the shapes a failed parse could present here. -/
def parseQ (s : List Char) : Option ℚ :=
  let ds := s.takeWhile Char.isDigit
  let rest := s.drop ds.length
  if ds.isEmpty then none
  else
    match rest with
    | [] => some (digitsVal ds)
    | '.' :: fr =>
      if fr.all Char.isDigit then
        some ((digitsVal ds : ℚ) + (digitsVal fr : ℚ) / ((10 ^ fr.length : ℕ) : ℚ))
      else none
    | _ => none

/-- Banker's rounding to an integer, the rounding of Python round. -/
def roundHalfEven (q : ℚ) : ℤ :=
  let f := ⌊q⌋
  let r := q - (f : ℚ)
  if r < 1 / 2 then f
  else if 1 / 2 < r then f + 1
  else if f % 2 = 0 then f else f + 1

/-- Python round(x, 2). -/
def round2 (q : ℚ) : ℚ := ((roundHalfEven (q * 100) : ℚ)) / 100

-- ===== status classifiers =====

/-- Model of NLPService._determine_status. -/
def _determine_status (value min_normal max_normal : ℚ) : String :=
  if min_normal ≤ value ∧ value ≤ max_normal then "normal"
  else if min_normal * 0.9 ≤ value ∧ value ≤ max_normal * 1.1 then "borderline"
  else "abnormal"

/-- Behaviour of _determine_status when the source passes float('inf') as
max_normal (the .get default for a missing normal_max key, which no catalog
entry ever exercises): the two upper-bound comparisons are always true. -/
def _determine_status_inf (value min_normal : ℚ) : String :=
  if min_normal ≤ value then "normal"
  else if min_normal * 0.9 ≤ value then "borderline"
  else "abnormal"

/-- Model of NLPService._determine_bp_status. -/
def _determine_bp_status (systolic diastolic normal_systolic normal_diastolic : ℚ) : String :=
  if systolic ≤ normal_systolic ∧ diastolic ≤ normal_diastolic then "normal"
  else if systolic ≤ normal_systolic * 1.1 ∧ diastolic ≤ normal_diastolic * 1.1 then "borderline"
  else "abnormal"

-- ===== biomarker catalog =====

/-- One catalog entry of _load_biomarker_patterns.  The bound fields are
optional because the source dicts carry normal_min and normal_max for every
entry except blood_pressure, which instead carries the two maxima read only
by the blood-pressure branch of the extractor. -/
structure BiomarkerConfig where
  patterns : List Rx
  unitName : String
  normal_range : String
  normal_min : Option ℚ
  normal_max : Option ℚ
  normal_systolic_max : Option ℚ
  normal_diastolic_max : Option ℚ

def hemoglobin_config : BiomarkerConfig :=
  ⟨[stdPat ["hb"] ["g/dl", "gm/dl", "g%"],
    stdPat ["hemoglobin"] ["g/dl", "gm/dl", "g%"],
    stdPat ["haemoglobin"] ["g/dl", "gm/dl", "g%"]],
   "g/dL", "12.0-16.0", some 12.0, some 16.0, none, none⟩

def blood_sugar_config : BiomarkerConfig :=
  ⟨[stdPat ["glucose"] ["mg/dl", "mmol/l"],
    stdPat ["blood", "sugar"] ["mg/dl", "mmol/l"],
    stdPat ["fasting", "glucose"] ["mg/dl", "mmol/l"],
    stdPat ["random", "glucose"] ["mg/dl", "mmol/l"]],
   "mg/dL", "70-100", some 70, some 100, none, none⟩

def cholesterol_config : BiomarkerConfig :=
  ⟨[stdPat ["total", "cholesterol"] ["mg/dl"],
    stdPat ["cholesterol"] ["mg/dl"],
    stdPat ["chol"] ["mg/dl"]],
   "mg/dL", "<200", some 0, some 200, none, none⟩

def ldl_cholesterol_config : BiomarkerConfig :=
  ⟨[stdPat ["ldl", "cholesterol"] ["mg/dl"],
    stdPat ["ldl"] ["mg/dl"],
    stdPat ["low", "density", "lipoprotein"] ["mg/dl"]],
   "mg/dL", "<100", some 0, some 100, none, none⟩

def hdl_cholesterol_config : BiomarkerConfig :=
  ⟨[stdPat ["hdl", "cholesterol"] ["mg/dl"],
    stdPat ["hdl"] ["mg/dl"],
    stdPat ["high", "density", "lipoprotein"] ["mg/dl"]],
   "mg/dL", ">40", some 40, some 999, none, none⟩

def triglycerides_config : BiomarkerConfig :=
  ⟨[stdPat ["triglycerides"] ["mg/dl"],
    stdPat ["tg"] ["mg/dl"],
    stdPat ["trigs"] ["mg/dl"]],
   "mg/dL", "<150", some 0, some 150, none, none⟩

def wbc_config : BiomarkerConfig :=
  ⟨[stdPat ["wbc"] ["/μl", "/ul", "cells/μl"],
    stdPat ["white", "blood", "cells"] ["/μl", "/ul", "cells/μl"],
    stdPat ["leukocytes"] ["/μl", "/ul", "cells/μl"]],
   "/μL", "4000-11000", some 4000, some 11000, none, none⟩

def platelets_config : BiomarkerConfig :=
  ⟨[stdPat ["platelets"] ["/μl", "/ul", "cells/μl"],
    stdPat ["plt"] ["/μl", "/ul", "cells/μl"],
    stdPat ["thrombocytes"] ["/μl", "/ul", "cells/μl"]],
   "/μL", "150000-450000", some 150000, some 450000, none, none⟩

def hematocrit_config : BiomarkerConfig :=
  ⟨[pctPat ["hematocrit"], pctPat ["hct"], pctPat ["packed", "cell", "volume"]],
   "%", "36-46", some 36, some 46, none, none⟩

def alt_config : BiomarkerConfig :=
  ⟨[stdPat ["alt"] ["u/l", "iu/l"],
    stdPat ["alanine", "aminotransferase"] ["u/l", "iu/l"],
    stdPat ["sgpt"] ["u/l", "iu/l"]],
   "U/L", "7-45", some 7, some 45, none, none⟩

def ast_config : BiomarkerConfig :=
  ⟨[stdPat ["ast"] ["u/l", "iu/l"],
    stdPat ["aspartate", "aminotransferase"] ["u/l", "iu/l"],
    stdPat ["sgot"] ["u/l", "iu/l"]],
   "U/L", "8-40", some 8, some 40, none, none⟩

def bilirubin_total_config : BiomarkerConfig :=
  ⟨[stdPat ["total", "bilirubin"] ["mg/dl"],
    stdPat ["bilirubin", "total"] ["mg/dl"],
    stdPat ["bil", "total"] ["mg/dl"]],
   "mg/dL", "0.3-1.2", some 0.3, some 1.2, none, none⟩

def albumin_config : BiomarkerConfig :=
  ⟨[stdPat ["albumin"] ["g/dl"], stdPat ["alb"] ["g/dl"]],
   "g/dL", "3.5-5.0", some 3.5, some 5.0, none, none⟩

def blood_pressure_config : BiomarkerConfig :=
  ⟨[bpPat ["bp"], bpPat ["blood", "pressure"]],
   "mmHg", "120/80", none, none, some 120, some 80⟩

/-- The biomarker catalog of _load_biomarker_patterns, in dict insertion
order. -/
def biomarker_patterns : List (String × BiomarkerConfig) :=
  [("hemoglobin", hemoglobin_config),
   ("blood_sugar", blood_sugar_config),
   ("cholesterol", cholesterol_config),
   ("ldl_cholesterol", ldl_cholesterol_config),
   ("hdl_cholesterol", hdl_cholesterol_config),
   ("triglycerides", triglycerides_config),
   ("wbc", wbc_config),
   ("platelets", platelets_config),
   ("hematocrit", hematocrit_config),
   ("alt", alt_config),
   ("ast", ast_config),
   ("bilirubin_total", bilirubin_total_config),
   ("albumin", albumin_config),
   ("blood_pressure", blood_pressure_config)]

-- ===== biomarker extraction =====

/-- An extracted reading, the dict the extractor stores per biomarker:
value/unit/range/status for a standard biomarker,
systolic/diastolic/unit/range/status for blood pressure. -/
inductive Reading where
  | std (value : ℚ) (unitName : String) (range : String) (status : String)
  | bp (systolic diastolic : ℚ) (unitName : String) (range : String) (status : String)
deriving DecidableEq

def Reading.status : Reading → String
  | .std _ _ _ st => st
  | .bp _ _ _ _ st => st

/-- The status the extractor computes for a standard value: the source
calls _determine_status with config.get of normal_min defaulting to 0 and
of normal_max defaulting to float('inf'); the missing-max case is the inf
variant (no catalog entry reaching this code has a missing bound). -/
def statusFromConfig (v : ℚ) (cfg : BiomarkerConfig) : String :=
  match cfg.normal_max with
  | some mx => _determine_status v (cfg.normal_min.getD 0) mx
  | none => _determine_status_inf v (cfg.normal_min.getD 0)

/-- Build the reading the extractor stores from one successful regex match:
the blood-pressure branch parses groups 1 and 2 as systolic and diastolic,
the standard branch parses group 1 as the value and reports group 2 as the
unit when the pattern has more than one group, else the config unit.  A
none models the ValueError path in which a captured group fails float()
(unreachable for these patterns, whose groups are always numeric). -/
def readingOfCaps (name : String) (cfg : BiomarkerConfig) (p : Rx) (caps : Caps) : Option Reading :=
  if name == "blood_pressure" then
    match parseQ (capGet caps 1), parseQ (capGet caps 2) with
    | some sys, some dia =>
      some (Reading.bp sys dia cfg.unitName cfg.normal_range
        (_determine_bp_status sys dia (cfg.normal_systolic_max.getD 0)
          (cfg.normal_diastolic_max.getD 0)))
    | _, _ => none
  else
    match parseQ (capGet caps 1) with
    | some v =>
      some (Reading.std v
        (if groupCount p > 1 then String.mk (capGet caps 2) else cfg.unitName)
        cfg.normal_range (statusFromConfig v cfg))
    | none => none

/-- One pattern of one entry: iterate the finditer matches and keep the
first one whose parse succeeds (the source's for-loop with break on
success and continue on ValueError). -/
def tryPattern (name : String) (cfg : BiomarkerConfig) (p : Rx) (t : List Char) : Option Reading :=
  (finditerL (t.length + 1) (mfuel t) p t).findSome? (readingOfCaps name cfg p)

/-- One catalog entry: the source tries every pattern of the entry and
assigns biomarkers[name] on each success, so a success of a later pattern
overwrites the reading of an earlier one. -/
def extractEntry (name : String) (cfg : BiomarkerConfig) (t : List Char) : Option Reading :=
  cfg.patterns.foldl
    (fun acc p =>
      match tryPattern name cfg p t with
      | some r => some r
      | none => acc)
    none

/-- Model of NLPService._extract_biomarker_values: the biomarkers dict in
its insertion order, which is the catalog order restricted to the entries
with a successful match. -/
def _extract_biomarker_values (text : String) : List (String × Reading) :=
  biomarker_patterns.filterMap
    (fun pr => (extractEntry pr.1 pr.2 text.data).map (fun r => (pr.1, r)))

-- ===== confidence =====

def medical_keywords : List String :=
  ["test", "result", "normal", "abnormal", "range",
   "laboratory", "clinic", "hospital", "doctor", "patient"]

/-- Model of NLPService._calculate_confidence. -/
def _calculate_confidence (biomarkers : List (String × Reading)) (text : String) : ℚ :=
  if biomarkers.isEmpty then 0
  else
    let biomarker_score : ℚ := min ((biomarkers.length : ℚ) * 0.2) 1
    let text_length_score : ℚ := min ((text.length : ℚ) / 1000) 1
    let keyword_score : ℚ :=
      ((medical_keywords.filter
          (fun kw => hasSub kw.data (text.data.map Char.toLower))).length : ℚ) /
        (medical_keywords.length : ℚ)
    round2 (min (biomarker_score * 0.5 + text_length_score * 0.2 + keyword_score * 0.3) 1)

-- ===== facility extraction =====

/-- The institution-keyword alternation of the first facility pattern, in
source order. -/
def facilityKeyAlt : Rx :=
  ralts [rstr "hospital", rstr "clinic", rstr "medical center", rstr "diagnostics",
         rstr "lab", rstr "laboratory", rstr "healthcare", rstr "pathology"]

/-- End of a facility candidate: a newline or (with re.MULTILINE) the
end-of-line anchor. -/
def lineEndRx : Rx := Rx.alt (Rx.ch '\n') Rx.eol

/-- The four patterns of _load_facility_patterns, in order. -/
def facility_patterns : List Rx :=
  [rseq [Rx.group 1 (rseq [Rx.star false (Rx.cls RxCls.dot), facilityKeyAlt,
                           Rx.star false (Rx.cls RxCls.dot)]), lineEndRx],
   rseq [Rx.group 1 (rseq [Rx.star false (Rx.cls RxCls.dot),
                           ralts [rstr "dr.", rstr "doctor", rstr "physician"],
                           Rx.star false (Rx.cls RxCls.dot)]), lineEndRx],
   rseq [rstr "report", ws0, rstr "from", ws0, colonOpt, ws0,
         Rx.group 1 (Rx.star false (Rx.cls RxCls.dot)), lineEndRx],
   rseq [rstr "issued", ws0, rstr "by", ws0, colonOpt, ws0,
         Rx.group 1 (Rx.star false (Rx.cls RxCls.dot)), lineEndRx]]

/-- One facility pattern: a some exactly when re.search matches and the
stripped group passes the source's length test of strictly more than 5 and
strictly less than 100 characters. -/
def facilityStep (p : Rx) (t : List Char) : Option (List Char) :=
  match rsearchA (mfuel t) p t with
  | some (caps, _) =>
    let fac := stripL (capGet caps 1)
    if 5 < fac.length ∧ fac.length < 100 then some fac else none
  | none => none

def facilityLoop : List Rx → List Char → Option (List Char)
  | [], _ => none
  | p :: ps, t =>
    match facilityStep p t with
    | some fac => some fac
    | none => facilityLoop ps t

/-- Model of NLPService._extract_facility. -/
def _extract_facility (text : String) : String :=
  ((facilityLoop facility_patterns text.data).map String.mk).getD "Medical Facility"

-- ===== date extraction =====

/-- The group \d{1,2} of one or two digits, greedy. -/
def d12 : Rx := Rx.seq (Rx.cls RxCls.digit) (Rx.opt true (Rx.cls RxCls.digit))

/-- The group \d{2,4} of two to four digits, greedy. -/
def d24 : Rx :=
  rseq [Rx.cls RxCls.digit, Rx.cls RxCls.digit,
        Rx.opt true (Rx.seq (Rx.cls RxCls.digit) (Rx.opt true (Rx.cls RxCls.digit)))]

/-- The numeric date candidate: \d{1,2}, a dash-or-slash class, \d{1,2},
a dash-or-slash class, \d{2,4}. -/
def numDateRx : Rx :=
  rseq [d12, Rx.cls RxCls.dashSlash, d12, Rx.cls RxCls.dashSlash, d24]

def monthAbbrevAlt : Rx :=
  ralts [rstr "jan", rstr "feb", rstr "mar", rstr "apr", rstr "may", rstr "jun",
         rstr "jul", rstr "aug", rstr "sep", rstr "oct", rstr "nov", rstr "dec"]

def monthNameAlt : Rx :=
  ralts [rstr "january", rstr "february", rstr "march", rstr "april", rstr "may",
         rstr "june", rstr "july", rstr "august", rstr "september", rstr "october",
         rstr "november", rstr "december"]

/-- The six patterns of _load_date_patterns, in order. -/
def date_patterns : List Rx :=
  [rseq [rstr "date", ws0, colonOpt, ws0, Rx.group 1 numDateRx],
   rseq [rstr "test", ws0, rstr "date", ws0, colonOpt, ws0, Rx.group 1 numDateRx],
   rseq [rstr "collected", ws0, rstr "on", ws0, colonOpt, ws0, Rx.group 1 numDateRx],
   Rx.group 1 numDateRx,
   Rx.group 1 (rseq [d12, ws1, monthAbbrevAlt, ws1, d24]),
   Rx.group 1 (rseq [d12, ws1, monthNameAlt, ws1, d24])]

/-- A strptime numeric directive of the formats the service lists. -/
inductive DFld where
  | day
  | month
  | year4
  | year2
deriving DecidableEq

/-- The candidate parses of one directive at the head of the input, in the
backtracking order of the regexes CPython compiles the directives to:
%d is 3[01]|[12]\d|0[1-9]|[1-9]| [1-9], %m is 1[0-2]|0[1-9]|[1-9],
%Y is exactly four digits, %y exactly two. -/
def dfldParses : DFld → List Char → List (Nat × List Char)
  | .day, s =>
    (match s with
     | c1 :: c2 :: rest =>
       (if c1 == '3' && (c2 == '0' || c2 == '1') then [(digitsVal [c1, c2], rest)] else []) ++
       (if (c1 == '1' || c1 == '2') && c2.isDigit then [(digitsVal [c1, c2], rest)] else []) ++
       (if c1 == '0' && c2.isDigit && c2 != '0' then [(digitsVal [c2], rest)] else [])
     | _ => []) ++
    (match s with
     | c1 :: rest => if c1.isDigit && c1 != '0' then [(digitsVal [c1], rest)] else []
     | _ => []) ++
    (match s with
     | c0 :: c1 :: rest =>
       if c0 == ' ' && c1.isDigit && c1 != '0' then [(digitsVal [c1], rest)] else []
     | _ => [])
  | .month, s =>
    (match s with
     | c1 :: c2 :: rest =>
       (if c1 == '1' && (c2 == '0' || c2 == '1' || c2 == '2') then
          [(digitsVal [c1, c2], rest)] else []) ++
       (if c1 == '0' && c2.isDigit && c2 != '0' then [(digitsVal [c2], rest)] else [])
     | _ => []) ++
    (match s with
     | c1 :: rest => if c1.isDigit && c1 != '0' then [(digitsVal [c1], rest)] else []
     | _ => [])
  | .year4, s =>
    (match s with
     | c1 :: c2 :: c3 :: c4 :: rest =>
       if c1.isDigit && c2.isDigit && c3.isDigit && c4.isDigit then
         [(digitsVal [c1, c2, c3, c4], rest)] else []
     | _ => [])
  | .year2, s =>
    (match s with
     | c1 :: c2 :: rest =>
       if c1.isDigit && c2.isDigit then [(digitsVal [c1, c2], rest)] else []
     | _ => [])

/-- One numeric format of the service's list: three directives joined by a
fixed separator character. -/
structure DateFmt where
  f1 : DFld
  f2 : DFld
  f3 : DFld
  sep : Char

/-- The ten formats _parse_date tries, in order. -/
def dateFormats : List DateFmt :=
  [⟨.day, .month, .year4, '/'⟩, ⟨.day, .month, .year4, '-'⟩,
   ⟨.month, .day, .year4, '/'⟩, ⟨.month, .day, .year4, '-'⟩,
   ⟨.day, .month, .year2, '/'⟩, ⟨.day, .month, .year2, '-'⟩,
   ⟨.month, .day, .year2, '/'⟩, ⟨.month, .day, .year2, '-'⟩,
   ⟨.year4, .month, .day, '/'⟩, ⟨.year4, .month, .day, '-'⟩]

def isLeap (y : Nat) : Bool := y % 4 == 0 && (y % 100 != 0 || y % 400 == 0)

def daysInMonth (y m : Nat) : Nat :=
  if m == 2 then (if isLeap y then 29 else 28)
  else if m == 4 || m == 6 || m == 9 || m == 11 then 30
  else 31

/-- The century adjustment CPython applies to a two-digit %y year. -/
def adjustY2 (y : Nat) : Nat := if y ≤ 68 then y + 2000 else y + 1900

/-- Assemble and validate the datetime from the three parsed fields: the
constructor rejects a day beyond the month length and a year below 1. -/
def mkYmd (fld : DFld) (v : Nat) (acc : Nat × Nat × Nat) : Nat × Nat × Nat :=
  match fld with
  | .day => (acc.1, acc.2.1, v)
  | .month => (acc.1, v, acc.2.2)
  | .year4 => (v, acc.2.1, acc.2.2)
  | .year2 => (adjustY2 v, acc.2.1, acc.2.2)

def validYmd (y m d : Nat) : Bool :=
  1 ≤ y && y ≤ 9999 && 1 ≤ m && m ≤ 12 && 1 ≤ d && d ≤ daysInMonth y m

/-- Model of datetime.strptime against one of the numeric formats: the
directive regexes with a literal separator between them must consume the
whole string (strptime raises on unconverted trailing data), then the
datetime constructor validates the calendar date. -/
def strptimeF (fmt : DateFmt) (s : List Char) : Option (Nat × Nat × Nat) :=
  ((dfldParses fmt.f1 s).findSome? fun (v1, r1) =>
    match r1 with
    | c :: r1b =>
      if c == fmt.sep then
        (dfldParses fmt.f2 r1b).findSome? fun (v2, r2) =>
          match r2 with
          | c2 :: r2b =>
            if c2 == fmt.sep then
              (dfldParses fmt.f3 r2b).findSome? fun (v3, r3) =>
                match r3 with
                | [] =>
                  let ymd := mkYmd fmt.f3 v3 (mkYmd fmt.f2 v2 (mkYmd fmt.f1 v1 (0, 0, 0)))
                  if validYmd ymd.1 ymd.2.1 ymd.2.2 then some ymd else none
                | _ => none
            else none
          | [] => none
      else none
    | [] => none)

def pad2 (n : Nat) : String := if n < 10 then "0" ++ toString n else toString n

def pad4 (n : Nat) : String :=
  if n < 10 then "000" ++ toString n
  else if n < 100 then "00" ++ toString n
  else if n < 1000 then "0" ++ toString n
  else toString n

/-- strftime of a date in the %Y-%m-%d shape. -/
def isoOfYmd (ymd : Nat × Nat × Nat) : String :=
  pad4 ymd.1 ++ "-" ++ pad2 ymd.2.1 ++ "-" ++ pad2 ymd.2.2

/-- Model of NLPService._parse_date: strip the candidate, try the formats
in order, return the first parse in ISO shape; when no format parses,
return the current date (passed here as today). -/
def _parse_date (today : String) (s : List Char) : String :=
  match (dateFormats.findSome? fun fmt => strptimeF fmt (stripL s)) with
  | some ymd => isoOfYmd ymd
  | none => today

/-- The pattern loop of _extract_date: the first pattern with a re.search
match hands its group 1 to _parse_date and its result is returned; the
except-continue around that call is dead because _parse_date handles its
own failures by returning the current date. -/
def dateLoop (today : String) : List Rx → List Char → Option String
  | [], _ => none
  | p :: ps, t =>
    match rsearchA (mfuel t) p t with
    | some (caps, _) => some (_parse_date today (capGet caps 1))
    | none => dateLoop today ps t

/-- Model of NLPService._extract_date. -/
def _extract_date (today : String) (text : String) : String :=
  (dateLoop today date_patterns text.data).getD today

-- ===== test type extraction =====

/-- The keyword groups of _load_test_type_patterns, in dict insertion
order. -/
def test_type_patterns : List (String × List Rx) :=
  [("Blood Test",
    [wordsRx ["complete", "blood", "count"], rstr "cbc", wordsRx ["blood", "test"],
     rstr "hematology", rstr "hemogram"]),
   ("Lipid Panel",
    [wordsRx ["lipid", "profile"], wordsRx ["lipid", "panel"],
     wordsRx ["cholesterol", "test"], rstr "lipogram"]),
   ("Liver Function Test",
    [wordsRx ["liver", "function", "test"], rstr "lft", wordsRx ["hepatic", "panel"],
     wordsRx ["liver", "profile"]]),
   ("Kidney Function Test",
    [wordsRx ["kidney", "function", "test"], rstr "kft", wordsRx ["renal", "function"],
     rstr "creatinine", rstr "urea"]),
   ("Thyroid Function Test",
    [wordsRx ["thyroid", "function", "test"], rstr "tft", wordsRx ["thyroid", "profile"],
     rstr "tsh", rstr "t3", rstr "t4"])]

def testTypeLoop : List (String × List Rx) → List Char → Option String
  | [], _ => none
  | (name, pats) :: rest, t =>
    if pats.any (fun p => (rsearchA (mfuel t) p t).isSome) then some name
    else testTypeLoop rest t

/-- Model of NLPService._extract_test_type: the first keyword group with a
matching pattern wins, else fall back to substring tests over the
lowercased text, else the default. -/
def _extract_test_type (text : String) : String :=
  match testTypeLoop test_type_patterns text.data with
  | some tt => tt
  | none =>
    let tl := text.data.map Char.toLower
    if ["cholesterol", "ldl", "hdl", "triglycerides"].any (fun w => hasSub w.data tl) then
      "Lipid Panel"
    else if ["alt", "ast", "bilirubin", "albumin"].any (fun w => hasSub w.data tl) then
      "Liver Function Test"
    else if ["hemoglobin", "wbc", "platelets", "hematocrit"].any (fun w => hasSub w.data tl) then
      "Complete Blood Count"
    else "Medical Test"

-- ===== orchestrator =====

/-- The ambient effects of the service, passed explicitly: the current date
as datetime.now().strftime of %Y-%m-%d, the datetime.utcnow().isoformat()
timestamp, and the optional spaCy model of _extract_named_entities, whose
output is treated as an abstract list supplied by the environment (spaCy is
an external collaborator; self.nlp is None when its model failed to load). -/
structure NlpEnv where
  todayStr : String
  nowIso : String
  nlpEnts : Option (String → List String)

/-- The result dict of extract_biomarkers. -/
structure ExtractionResult where
  biomarkers : List (String × Reading)
  test_type : String
  facility : String
  date : String
  entities : List String
  confidence_score : ℚ
  text_length : Nat
  processed_at : String

/-- Model of NLPService._empty_result. -/
def _empty_result (env : NlpEnv) : ExtractionResult :=
  ⟨[], "Unknown", "Unknown Facility", env.todayStr, [], 0, 0, env.nowIso⟩

/-- Model of NLPService.extract_biomarkers: an empty text short-circuits to
the empty result; otherwise the text is cleaned and each component
extractor runs on the cleaned text, except that the confidence and the
recorded length use the raw text.  Every model function is total, so the
except-branch of the source (which also returns the empty result) has no
counterpart here. -/
def extract_biomarkers (env : NlpEnv) (text : String) : ExtractionResult :=
  if text = "" then _empty_result env
  else
    let cleaned := _clean_text text
    ⟨_extract_biomarker_values cleaned,
     _extract_test_type cleaned,
     _extract_facility cleaned,
     _extract_date env.todayStr cleaned,
     (match env.nlpEnts with
      | some f => f cleaned
      | none => []),
     _calculate_confidence (_extract_biomarker_values cleaned) text,
     text.length,
     env.nowIso⟩

-- ===== theorems =====

/-- C1: the spec requires the text about Hb 13.5, Glucose 95 and
Cholesterol 180 to produce exactly the three readings with normal status
and a positive confidence; the code disagrees: _clean_text blanket-replaces
the letters o, i and l throughout the text, corrupting the biomarker names
and units, so the extractor finds nothing and the confidence is 0.  This
theorem evaluates the code at the failing input: the cleaned text, the
empty extraction, and the zero confidence of the orchestrator result. -/
theorem c1_code_bug_eval :
    _clean_text "Hb: 13.5 g/dl, Glucose: 95 mg/dl, Cholesterol: 180 mg/dl" =
      "hb: 13.5 g/d1, g1uc0se: 95 mg/d1, ch01ester01: 180 mg/d1"
    ∧ _extract_biomarker_values
        (_clean_text "Hb: 13.5 g/dl, Glucose: 95 mg/dl, Cholesterol: 180 mg/dl") = []
    ∧ ∀ env : NlpEnv,
        (extract_biomarkers env
          "Hb: 13.5 g/dl, Glucose: 95 mg/dl, Cholesterol: 180 mg/dl").confidence_score = 0 :=
  ⟨by decide, by decide, fun _ => rfl⟩

/-- C3 counterexample: the claim asserts that min_normal = 0 and value = 0
classify as normal for all numeric inputs, but with max_normal = -1 the
code returns abnormal. -/
theorem c3_counterexample :
    _determine_status 0 0 (-1) = "abnormal" ∧ _determine_status 0 0 (-1) ≠ "normal" := by
  constructor <;> decide

/-- C3 amended: the three if-and-only-if characterisations of the claim
hold for all rational inputs, and the edge case of min_normal = 0 and
value = 0 classifies as normal whenever max_normal is nonnegative (for a
negative max_normal the code returns abnormal, as the counterexample
shows). -/
theorem c3_amended (v mn mx : ℚ) :
    (_determine_status v mn mx = "normal" ↔ mn ≤ v ∧ v ≤ mx)
    ∧ (_determine_status v mn mx = "borderline" ↔
        (mn * 0.9 ≤ v ∧ v ≤ mx * 1.1) ∧ ¬(mn ≤ v ∧ v ≤ mx))
    ∧ (_determine_status v mn mx = "abnormal" ↔
        ¬(mn ≤ v ∧ v ≤ mx) ∧ ¬(mn * 0.9 ≤ v ∧ v ≤ mx * 1.1))
    ∧ (0 ≤ mx → _determine_status 0 0 mx = "normal") := by
  refine ⟨?_, ?_, ?_, fun hmx => ?_⟩
  · unfold _determine_status; split_ifs with h1 h2 <;> simp_all
  · unfold _determine_status; split_ifs with h1 h2 <;> simp_all
  · unfold _determine_status; split_ifs with h1 h2 <;> simp_all
  · unfold _determine_status; rw [if_pos ⟨le_refl (0 : ℚ), hmx⟩]

theorem c3_amended_witness :
    (0 : ℚ) ≤ 200 ∧ _determine_status 0 0 200 = "normal" :=
  ⟨by norm_num, (c3_amended 0 0 200).2.2.2 (by norm_num)⟩

/-- C4 counterexample: the claim asserts abnormal exactly when a component
exceeds 110 percent of its maximum, for every pair and maxima; with a
negative systolic maximum the systolic value -21/2 exceeds the 110 percent
threshold -11 yet the code classifies the pair as normal, because the code
tests the normal band first. -/
theorem c4_counterexample :
    _determine_bp_status (-(21 / 2)) 0 (-10) 80 = "normal"
    ∧ ((-10 : ℚ)) * 1.1 < -(21 / 2) := by
  constructor <;> decide

/-- C4 amended: for nonnegative maxima (as the catalog's 120 and 80) the
claimed characterisation holds: normal exactly when both components are
within their maxima, abnormal exactly when a component exceeds 110 percent
of its maximum, borderline otherwise; and the text about BP 150/95 mmHg
extracts a blood-pressure reading with systolic 150, diastolic 95 and
abnormal status. -/
theorem c4_amended :
    (∀ s d smax dmax : ℚ, 0 ≤ smax → 0 ≤ dmax →
      ((_determine_bp_status s d smax dmax = "normal" ↔ s ≤ smax ∧ d ≤ dmax)
       ∧ (_determine_bp_status s d smax dmax = "abnormal" ↔
            smax * 1.1 < s ∨ dmax * 1.1 < d)
       ∧ (_determine_bp_status s d smax dmax = "borderline" ↔
            ¬(s ≤ smax ∧ d ≤ dmax) ∧ s ≤ smax * 1.1 ∧ d ≤ dmax * 1.1)))
    ∧ _extract_biomarker_values (_clean_text "BP: 150/95 mmHg") =
        [("blood_pressure", Reading.bp 150 95 "mmHg" "120/80" "abnormal")] := by
  constructor
  · intro s d smax dmax hs hd
    have h1 : smax ≤ smax * 1.1 := by nlinarith
    have h2 : dmax ≤ dmax * 1.1 := by nlinarith
    unfold _determine_bp_status
    split_ifs with g1 g2
    · refine ⟨by simp_all, ?_, by simp_all⟩
      constructor
      · intro h; simp at h
      · rintro (h | h) <;> [exact absurd (le_trans g1.1 h1) (not_le.mpr h);
          exact absurd (le_trans g1.2 h2) (not_le.mpr h)]
    · refine ⟨by simp_all, ?_, by simp_all⟩
      constructor
      · intro h; simp at h
      · rintro (h | h) <;> [exact absurd g2.1 (not_le.mpr h);
          exact absurd g2.2 (not_le.mpr h)]
    · refine ⟨by simp_all, ?_, by simp_all⟩
      constructor
      · intro _
        rcases not_and_or.mp g2 with h | h
        · exact Or.inl (not_le.mp h)
        · exact Or.inr (not_le.mp h)
      · intro _; rfl
  · decide

theorem c4_amended_witness :
    (0 : ℚ) ≤ 120 ∧ (0 : ℚ) ≤ 80 ∧ _determine_bp_status 150 95 120 80 = "abnormal" :=
  ⟨by norm_num, by norm_num,
    ((c4_amended.1 150 95 120 80 (by norm_num) (by norm_num)).2.1).mpr
      (Or.inl (by norm_num))⟩

/-- C7: for the empty input the orchestrator returns the documented empty
result: no biomarkers, confidence 0, the default test type of
_empty_result (the string Unknown), the default facility, and the current
date.  Every function of the model is total, so a structurally complete
ExtractionResult is returned for every input by construction. -/
theorem c7_empty_input (env : NlpEnv) :
    extract_biomarkers env "" = _empty_result env
    ∧ (extract_biomarkers env "").biomarkers = []
    ∧ (extract_biomarkers env "").confidence_score = 0
    ∧ (extract_biomarkers env "").test_type = "Unknown"
    ∧ (extract_biomarkers env "").facility = "Unknown Facility"
    ∧ (extract_biomarkers env "").date = env.todayStr :=
  ⟨rfl, rfl, rfl, rfl, rfl, rfl⟩

/-- Folding further patterns over an accumulator changes nothing when none
of them produces a reading. -/
theorem foldl_tryPattern_none (name : String) (cfg : BiomarkerConfig) (t : List Char)
    (l : List Rx) (acc : Option Reading)
    (h : ∀ q ∈ l, tryPattern name cfg q t = none) :
    l.foldl (fun acc p =>
      match tryPattern name cfg p t with
      | some r => some r
      | none => acc) acc = acc := by
  induction l generalizing acc with
  | nil => rfl
  | cons q qs ih =>
    rw [List.foldl_cons]
    have hq := h q (List.mem_cons_self q qs)
    simp only [hq]
    exact ih acc (fun q' hq' => h q' (List.mem_cons_of_mem q hq'))

/-- The keys of the extracted mapping are, in order, a sublist of the
catalog keys. -/
theorem extract_keys_sublist (text : String) :
    ((_extract_biomarker_values text).map Prod.fst).Sublist
      (biomarker_patterns.map Prod.fst) := by
  unfold _extract_biomarker_values
  generalize biomarker_patterns = l
  induction l with
  | nil => simp
  | cons hd tl ih =>
    rw [List.filterMap_cons]
    cases h : (extractEntry hd.1 hd.2 text.data).map (fun r => (hd.1, r)) with
    | none => exact ih.trans (List.sublist_cons_self _ _)
    | some pr =>
      rcases Option.map_eq_some'.mp h with ⟨r, _, hpr⟩
      rw [List.map_cons, ← hpr]
      exact List.Sublist.cons₂ hd.1 ih

/-- C2 counterexample: on a text in which the first hemoglobin pattern (the
hb form) matches with value 13 and the second (the hemoglobin form)
matches with value 14, the stored reading carries 14, because the source's
break leaves only the inner match loop and a later pattern of the same
entry overwrites the earlier reading; the claim demands that the first
pattern's reading 13 win. -/
theorem c2_counterexample :
    _extract_biomarker_values "hb: 13 g/dl hemoglobin: 14 g/dl" =
      [("hemoglobin", Reading.std 14 "g/dl" "12.0-16.0" "normal")]
    ∧ tryPattern "hemoglobin" hemoglobin_config (stdPat ["hb"] ["g/dl", "gm/dl", "g%"])
        "hb: 13 g/dl hemoglobin: 14 g/dl".data =
        some (Reading.std 13 "g/dl" "12.0-16.0" "normal") := by
  constructor <;> decide

/-- C2 amended: within one catalog entry each pattern still uses only its
first successful match, but across the patterns of the entry the LAST
listed pattern with a successful match determines the stored reading
(later successes overwrite earlier ones); at most one reading per name is
kept, the keys of the mapping being a sublist of the distinct catalog
names. -/
theorem c2_last_pattern_wins :
    (∀ (name : String) (cfg : BiomarkerConfig) (t : List Char)
       (l1 l2 : List Rx) (p : Rx) (r : Reading),
        cfg.patterns = l1 ++ p :: l2 →
        tryPattern name cfg p t = some r →
        (∀ q ∈ l2, tryPattern name cfg q t = none) →
        extractEntry name cfg t = some r)
    ∧ ∀ text : String, ((_extract_biomarker_values text).map Prod.fst).Nodup := by
  constructor
  · intro name cfg t l1 l2 p r hpat hp hl2
    unfold extractEntry
    rw [hpat, List.foldl_append, List.foldl_cons, hp]
    exact foldl_tryPattern_none name cfg t l2 (some r) hl2
  · intro text
    exact (extract_keys_sublist text).nodup (by decide)

theorem c2_last_pattern_wins_witness :
    tryPattern "hemoglobin" hemoglobin_config (stdPat ["hemoglobin"] ["g/dl", "gm/dl", "g%"])
        "hemoglobin: 14 g/dl".data = some (Reading.std 14 "g/dl" "12.0-16.0" "normal")
    ∧ extractEntry "hemoglobin" hemoglobin_config "hemoglobin: 14 g/dl".data =
        some (Reading.std 14 "g/dl" "12.0-16.0" "normal") := by
  refine ⟨by decide, c2_last_pattern_wins.1 "hemoglobin" hemoglobin_config _
    [stdPat ["hb"] ["g/dl", "gm/dl", "g%"]]
    [stdPat ["haemoglobin"] ["g/dl", "gm/dl", "g%"]]
    (stdPat ["hemoglobin"] ["g/dl", "gm/dl", "g%"]) _ rfl (by decide) ?_⟩
  intro q hq
  rw [List.mem_singleton] at hq
  subst hq
  decide

theorem determine_status_mem (v mn mx : ℚ) :
    _determine_status v mn mx ∈ (["normal", "borderline", "abnormal"] : List String) := by
  unfold _determine_status
  split_ifs <;> simp

theorem determine_status_inf_mem (v mn : ℚ) :
    _determine_status_inf v mn ∈ (["normal", "borderline", "abnormal"] : List String) := by
  unfold _determine_status_inf
  split_ifs <;> simp

theorem determine_bp_status_mem (s d smax dmax : ℚ) :
    _determine_bp_status s d smax dmax ∈ (["normal", "borderline", "abnormal"] : List String) := by
  unfold _determine_bp_status
  split_ifs <;> simp

theorem statusFromConfig_mem (v : ℚ) (cfg : BiomarkerConfig) :
    statusFromConfig v cfg ∈ (["normal", "borderline", "abnormal"] : List String) := by
  unfold statusFromConfig
  cases cfg.normal_max with
  | none => exact determine_status_inf_mem _ _
  | some mx => exact determine_status_mem _ _ _

theorem readingOfCaps_status (name : String) (cfg : BiomarkerConfig) (p : Rx) (caps : Caps)
    (r : Reading) (h : readingOfCaps name cfg p caps = some r) :
    r.status ∈ (["normal", "borderline", "abnormal"] : List String) := by
  unfold readingOfCaps at h
  split_ifs at h
  · rcases h1 : parseQ (capGet caps 1) with _ | sys <;> rw [h1] at h
    · simp at h
    · rcases h2 : parseQ (capGet caps 2) with _ | dia <;> rw [h2] at h
      · simp at h
      · simp only [Option.some.injEq] at h
        rw [← h]
        exact determine_bp_status_mem _ _ _ _
  all_goals
    rcases h1 : parseQ (capGet caps 1) with _ | v <;> rw [h1] at h
  any_goals simp at h
  all_goals
    rw [← h]
    exact statusFromConfig_mem _ _

theorem tryPattern_status (name : String) (cfg : BiomarkerConfig) (p : Rx) (t : List Char)
    (r : Reading) (h : tryPattern name cfg p t = some r) :
    r.status ∈ (["normal", "borderline", "abnormal"] : List String) := by
  unfold tryPattern at h
  rcases List.exists_of_findSome?_eq_some h with ⟨caps, _, hc⟩
  exact readingOfCaps_status name cfg p caps r hc

theorem extractEntry_status (name : String) (cfg : BiomarkerConfig) (t : List Char)
    (r : Reading) (h : extractEntry name cfg t = some r) :
    r.status ∈ (["normal", "borderline", "abnormal"] : List String) := by
  unfold extractEntry at h
  have aux : ∀ (l : List Rx) (acc : Option Reading),
      (∀ r', acc = some r' → r'.status ∈ (["normal", "borderline", "abnormal"] : List String)) →
      l.foldl (fun acc p =>
        match tryPattern name cfg p t with
        | some r => some r
        | none => acc) acc = some r →
      r.status ∈ (["normal", "borderline", "abnormal"] : List String) := by
    intro l
    induction l with
    | nil => intro acc hacc hf; exact hacc r hf
    | cons q qs ih =>
      intro acc hacc hf
      rw [List.foldl_cons] at hf
      refine ih _ ?_ hf
      intro r' hr'
      rcases hq : tryPattern name cfg q t with _ | rq <;> rw [hq] at hr'
      · exact hacc r' hr'
      · simp only [Option.some.injEq] at hr'
        rw [← hr']
        exact tryPattern_status name cfg q t rq hq
  exact aux cfg.patterns none (by intro r' h'; cases h') h

/-- C10: every key of the extracted mapping is a catalog entry name, and
every stored reading's status is one of normal, borderline, abnormal. -/
theorem c10_invariants (text : String) (n : String) (r : Reading)
    (h : (n, r) ∈ _extract_biomarker_values text) :
    n ∈ biomarker_patterns.map Prod.fst
    ∧ r.status ∈ (["normal", "borderline", "abnormal"] : List String) := by
  unfold _extract_biomarker_values at h
  rcases List.mem_filterMap.mp h with ⟨pr, hmem, hf⟩
  rcases Option.map_eq_some'.mp hf with ⟨r', hr', heq⟩
  have hn : pr.1 = n := congrArg Prod.fst heq
  have hr : r' = r := congrArg Prod.snd heq
  constructor
  · exact hn ▸ List.mem_map_of_mem Prod.fst hmem
  · exact hr ▸ extractEntry_status pr.1 pr.2 text.data r' hr'

theorem c10_invariants_witness :
    ("blood_pressure", Reading.bp 150 95 "mmHg" "120/80" "abnormal") ∈
        _extract_biomarker_values "bp: 150/95 mmhg"
    ∧ ("blood_pressure" ∈ biomarker_patterns.map Prod.fst
       ∧ (Reading.bp 150 95 "mmHg" "120/80" "abnormal").status ∈
           (["normal", "borderline", "abnormal"] : List String)) :=
  ⟨by decide, c10_invariants "bp: 150/95 mmhg" "blood_pressure" _ (by decide)⟩

theorem facilityLoop_none (t : List Char) (l : List Rx)
    (h : ∀ p ∈ l, facilityStep p t = none) : facilityLoop l t = none := by
  induction l with
  | nil => rfl
  | cons p ps ih =>
    rw [facilityLoop, h p (List.mem_cons_self p ps)]
    exact ih (fun q hq => h q (List.mem_cons_of_mem p hq))

theorem facilityLoop_some (t : List Char) (l : List Rx) (fac : List Char)
    (h : facilityLoop l t = some fac) : ∃ p ∈ l, facilityStep p t = some fac := by
  induction l with
  | nil => cases h
  | cons p ps ih =>
    rw [facilityLoop] at h
    rcases hp : facilityStep p t with _ | f <;> rw [hp] at h
    · rcases ih h with ⟨q, hq, hqs⟩
      exact ⟨q, List.mem_cons_of_mem p hq, hqs⟩
    · exact ⟨p, List.mem_cons_self p ps, h ▸ hp⟩

theorem facilityStep_length (p : Rx) (t : List Char) (fac : List Char)
    (h : facilityStep p t = some fac) : 5 < fac.length ∧ fac.length < 100 := by
  simp only [facilityStep] at h
  rcases hs : rsearchA (mfuel t) p t with _ | pr <;> rw [hs] at h
  · cases h
  · obtain ⟨caps, rest⟩ := pr
    dsimp only at h
    split_ifs at h with hc
    rw [Option.some.injEq] at h
    exact h ▸ hc

/-- C9 counterexample: the claim accepts a candidate of trimmed length 5
(it rejects only those shorter than 5 or longer than 100); on the text
ablab the first facility pattern matches with stripped group ablab of
length exactly 5, yet the code rejects it (its test is strictly greater
than 5) and falls through to the default facility. -/
theorem c9_counterexample :
    _extract_facility "ablab" = "Medical Facility"
    ∧ (rsearchA (mfuel ("ablab" : String).data) (facility_patterns.getD 0 Rx.eps)
        ("ablab" : String).data).map (fun pr => stripL (capGet pr.1 1)) =
        some "ablab".data
    ∧ ("ablab" : String).length = 5 := by
  refine ⟨by decide, by decide, by decide⟩

/-- C9 amended: a matched candidate is accepted exactly when its trimmed
length is strictly between 5 and 100 (so 6 to 99 characters); when every
pattern either fails to match or has its first match rejected by that
test, the default facility string is returned, and every non-default
result has length strictly between 5 and 100. -/
theorem c9_amended :
    (∀ t : String, (∀ p ∈ facility_patterns, facilityStep p t.data = none) →
        _extract_facility t = "Medical Facility")
    ∧ (∀ t : String, _extract_facility t = "Medical Facility"
        ∨ (5 < (_extract_facility t).length ∧ (_extract_facility t).length < 100)) := by
  constructor
  · intro t h
    unfold _extract_facility
    rw [facilityLoop_none t.data facility_patterns h]
    rfl
  · intro t
    unfold _extract_facility
    rcases hl : facilityLoop facility_patterns t.data with _ | fac
    · left; rfl
    · right
      rcases facilityLoop_some t.data facility_patterns fac hl with ⟨p, _, hps⟩
      exact facilityStep_length p t.data fac hps

theorem c9_amended_witness :
    (∀ p ∈ facility_patterns, facilityStep p ("zzzzz" : String).data = none)
    ∧ _extract_facility "zzzzz" = "Medical Facility" :=
  ⟨by decide, c9_amended.1 "zzzzz" (by decide)⟩

theorem roundHalfEven_ge_floor (q : ℚ) : ⌊q⌋ ≤ roundHalfEven q := by
  unfold roundHalfEven
  dsimp only
  split_ifs <;> omega

theorem round2_ge_tenth (q : ℚ) (h : 1 / 10 ≤ q) : (1 : ℚ) / 10 ≤ round2 q := by
  unfold round2
  have h1 : (10 : ℤ) ≤ ⌊q * 100⌋ := by
    apply Int.le_floor.mpr
    push_cast
    linarith
  have h2 := roundHalfEven_ge_floor (q * 100)
  have h3 : (10 : ℚ) ≤ ((roundHalfEven (q * 100) : ℤ) : ℚ) := by
    exact_mod_cast le_trans h1 h2
  linarith

/-- C5: when the biomarker mapping is nonempty the confidence equals the
claimed clamped weighted formula rounded to two decimals (the lower clamp
at 0 never binds because every term is nonnegative, so the code's min
against 1 agrees with the claimed clamp), and the confidence is 0 exactly
when the mapping is empty. -/
theorem c5_confidence (bm : List (String × Reading)) (text : String) :
    (bm ≠ [] →
      _calculate_confidence bm text =
        round2 (max 0 (min
          (0.5 * min ((bm.length : ℚ) * 0.2) 1
           + 0.2 * min ((text.length : ℚ) / 1000) 1
           + 0.3 * (((medical_keywords.filter
                (fun kw => hasSub kw.data (text.data.map Char.toLower))).length : ℚ)
              / (medical_keywords.length : ℚ))) 1)))
    ∧ (_calculate_confidence bm text = 0 ↔ bm = []) := by
  have hbs0 : (0 : ℚ) ≤ min ((bm.length : ℚ) * 0.2) 1 :=
    le_min (by positivity) (by norm_num)
  have hts0 : (0 : ℚ) ≤ min ((text.length : ℚ) / 1000) 1 :=
    le_min (by positivity) (by norm_num)
  have hks0 : (0 : ℚ) ≤
      ((medical_keywords.filter
          (fun kw => hasSub kw.data (text.data.map Char.toLower))).length : ℚ) /
        (medical_keywords.length : ℚ) := by positivity
  constructor
  · intro h
    have hne : bm.isEmpty = false := by
      cases bm
      · exact absurd rfl h
      · rfl
    simp only [_calculate_confidence, hne, Bool.false_eq_true, if_false]
    congr 1
    rw [max_eq_right (le_min (by linarith) (by norm_num))]
    ring_nf
  · constructor
    · intro h0
      by_contra hne
      have hlen : (1 : ℚ) ≤ (bm.length : ℚ) := by
        have : 0 < bm.length := List.length_pos.mpr hne
        exact_mod_cast this
      have hbm : bm.isEmpty = false := by
        cases bm
        · exact absurd rfl hne
        · rfl
      rw [_calculate_confidence, hbm] at h0
      simp only [Bool.false_eq_true, if_false] at h0
      have hbs : (2 : ℚ) / 10 ≤ min ((bm.length : ℚ) * 0.2) 1 :=
        le_min (by nlinarith) (by norm_num)
      have hq : (1 : ℚ) / 10 ≤ min
          (min ((bm.length : ℚ) * 0.2) 1 * 0.5
           + min ((text.length : ℚ) / 1000) 1 * 0.2
           + ((medical_keywords.filter
                (fun kw => hasSub kw.data (text.data.map Char.toLower))).length : ℚ) /
              (medical_keywords.length : ℚ) * 0.3) 1 :=
        le_min (by nlinarith) (by norm_num)
      have := round2_ge_tenth _ hq
      rw [h0] at this
      linarith
    · intro h
      subst h
      rfl

theorem c5_confidence_witness :
    ([(("x" : String), Reading.std 1 "u" "r" "normal")] ≠ [])
    ∧ _calculate_confidence [("x", Reading.std 1 "u" "r" "normal")] "t" =
        round2 (max 0 (min
          (0.5 * min ((([(("x" : String), Reading.std 1 "u" "r" "normal")].length : ℚ)) * 0.2) 1
           + 0.2 * min ((("t" : String).length : ℚ) / 1000) 1
           + 0.3 * (((medical_keywords.filter
                (fun kw => hasSub kw.data (("t" : String).data.map Char.toLower))).length : ℚ)
              / (medical_keywords.length : ℚ))) 1)) :=
  ⟨by decide, (c5_confidence [("x", Reading.std 1 "u" "r" "normal")] "t").1 (by decide)⟩

theorem dateLoop_append_none (today : String) (t : List Char) (l1 l2 : List Rx)
    (h : ∀ q ∈ l1, rsearchA (mfuel t) q t = none) :
    dateLoop today (l1 ++ l2) t = dateLoop today l2 t := by
  induction l1 with
  | nil => rfl
  | cons q qs ih =>
    rw [List.cons_append, dateLoop, h q (List.mem_cons_self q qs)]
    exact ih (fun q' hq' => h q' (List.mem_cons_of_mem q hq'))

/-- C8 counterexample: on a text whose first matching date pattern yields
the candidate 99/99/9999, which parses under none of the listed formats,
the extractor does not skip to the later collected-on pattern (whose
candidate 15/03/2024 would give 2024-03-15 as the claim demands); instead
_parse_date's internal fallback makes the current date the result. -/
theorem c8_counterexample :
    _extract_date "1999-01-01" "date: 99/99/9999 collected on: 15/03/2024" = "1999-01-01"
    ∧ _parse_date "1999-01-01" "15/03/2024".data = "2024-03-15"
    ∧ ("1999-01-01" : String) ≠ "2024-03-15" := by
  refine ⟨by decide, by decide, by decide⟩

/-- C8 amended: inside _parse_date the first listed format that parses the
candidate determines the output; but a candidate that parses under none of
the listed formats is not skipped: the first pattern with a regex match
hands its candidate to _parse_date, whose fallback returns the current
date as the final output, so extraction does not continue with the
remaining patterns.  The example Date: 15/03/2024 still yields 2024-03-15. -/
theorem c8_date_parsing :
    (∀ (today : String) (s : List Char) (l1 l2 : List DateFmt) (f : DateFmt)
       (ymd : Nat × Nat × Nat),
        dateFormats = l1 ++ f :: l2 →
        (∀ g ∈ l1, strptimeF g (stripL s) = none) →
        strptimeF f (stripL s) = some ymd →
        _parse_date today s = isoOfYmd ymd)
    ∧ (∀ (today text : String) (p : Rx) (ps1 ps2 : List Rx) (caps : Caps) (rest : List Char),
        date_patterns = ps1 ++ p :: ps2 →
        (∀ q ∈ ps1, rsearchA (mfuel text.data) q text.data = none) →
        rsearchA (mfuel text.data) p text.data = some (caps, rest) →
        (∀ g ∈ dateFormats, strptimeF g (stripL (capGet caps 1)) = none) →
        _extract_date today text = today)
    ∧ (∀ env : NlpEnv, (extract_biomarkers env "Date: 15/03/2024").date = "2024-03-15") := by
  refine ⟨?_, ?_, fun env => rfl⟩
  · intro today s l1 l2 f ymd hfmt h1 hf
    unfold _parse_date
    rw [hfmt, List.findSome?_append, List.findSome?_eq_none_iff.mpr h1, Option.none_or,
      List.findSome?_cons_of_isSome _ (by rw [hf]; rfl), hf]
  · intro today text p ps1 ps2 caps rest hpat hnone hm hparse
    unfold _extract_date
    rw [hpat, dateLoop_append_none today text.data ps1 (p :: ps2) hnone, dateLoop, hm]
    dsimp only
    rw [Option.getD_some]
    unfold _parse_date
    rw [List.findSome?_eq_none_iff.mpr hparse]

theorem c8_date_parsing_witness :
    _parse_date "z" "15/03/2024".data = isoOfYmd (2024, 3, 15)
    ∧ _extract_date "z" "date: 99/99/9999" = "z" := by
  constructor
  · exact c8_date_parsing.1 "z" "15/03/2024".data [] (dateFormats.drop 1)
      ⟨DFld.day, DFld.month, DFld.year4, '/'⟩ (2024, 3, 15) rfl (by simp) (by decide)
  · exact c8_date_parsing.2.1 "z" "date: 99/99/9999" (date_patterns.getD 0 Rx.eps) []
      (date_patterns.drop 1) [(1, "99/99/9999".data)] [] rfl (by simp) (by decide) (by decide)

-- ===== lemmas on the text normalizer (claim C6) =====

theorem replaceGo_single (a b : Char) (l : List Char) :
    replaceGo [a] [b] 0 l = l.map (fun c => if c = a then b else c) := by
  induction l with
  | nil => rfl
  | cons c cs ih =>
    rw [replaceGo, List.map_cons]
    simp only [startsWithL, Bool.and_true, List.isEmpty_cons, Bool.not_false,
      beq_iff_eq, List.length_cons, List.length_nil, List.drop_zero]
    by_cases h : a = c
    · rw [if_pos h, if_pos h.symm, List.singleton_append, ih]
    · rw [if_neg h, if_neg (fun hc => h hc.symm), ih]

theorem startsWithL_mem (p : List Char) : ∀ l : List Char,
    startsWithL p l = true → ∀ x ∈ p, x ∈ l := by
  induction p with
  | nil => intro l _ x hx; cases hx
  | cons a as ih =>
    intro l h x hx
    cases l with
    | nil => cases h
    | cons c cs =>
      rw [startsWithL, Bool.and_eq_true, beq_iff_eq] at h
      rcases List.mem_cons.mp hx with rfl | hx2
      · exact h.1 ▸ List.mem_cons_self _ _
      · exact List.mem_cons_of_mem _ (ih cs h.2 x hx2)

theorem replaceAll_no_occur (pat rep : List Char) (x : Char) (hx : x ∈ pat) :
    ∀ l : List Char, x ∉ l → replaceAll pat rep l = l := by
  intro l
  unfold replaceAll
  induction l with
  | nil => intro _; rfl
  | cons c cs ih =>
    intro hnl
    rw [replaceGo]
    have hsw : startsWithL pat (c :: cs) = false := by
      by_contra hsw
      exact hnl (startsWithL_mem pat (c :: cs)
        (Bool.not_eq_false _ ▸ Bool.of_not_eq_false hsw) x hx)
    rw [hsw, Bool.false_and, if_neg (by simp)]
    exact congrArg _ (ih (fun hc => hnl (List.mem_cons_of_mem c hc)))

theorem collapseGo_mem (x : Char) : ∀ (b : Bool) (l : List Char),
    x ∈ collapseGo b l → x = ' ' ∨ x ∈ l := by
  intro b l
  induction l generalizing b with
  | nil => intro h; cases h
  | cons c cs ih =>
    intro h
    rw [collapseGo] at h
    by_cases hws : isWsChar c
    · rw [if_pos hws] at h
      cases b with
      | true =>
        rcases ih true h with h1 | h1
        · exact Or.inl h1
        · exact Or.inr (List.mem_cons_of_mem c h1)
      | false =>
        rcases List.mem_cons.mp h with rfl | h1
        · exact Or.inl rfl
        · rcases ih true h1 with h2 | h2
          · exact Or.inl h2
          · exact Or.inr (List.mem_cons_of_mem c h2)
    · rw [if_neg hws] at h
      rcases List.mem_cons.mp h with rfl | h1
      · exact Or.inr (List.mem_cons_self _ _)
      · rcases ih false h1 with h2 | h2
        · exact Or.inl h2
        · exact Or.inr (List.mem_cons_of_mem c h2)

theorem mem_ifmap (a b : Char) (l : List Char) (x : Char)
    (hx : x ∈ l.map (fun c => if c = a then b else c)) : x = b ∨ (x ∈ l ∧ x ≠ a) := by
  rcases List.mem_map.mp hx with ⟨c, hc, hcx⟩
  by_cases h : c = a
  · subst h
    rw [if_pos rfl] at hcx
    exact Or.inl hcx.symm
  · rw [if_neg h] at hcx
    exact Or.inr ⟨hcx ▸ hc, hcx ▸ h⟩

theorem mapFixed {f : Char → Char} : ∀ l : List Char,
    (∀ c ∈ l, f c = c) → l.map f = l := by
  intro l
  induction l with
  | nil => intro _; rfl
  | cons c cs ih =>
    intro h
    rw [List.map_cons, h c (List.mem_cons_self _ _),
      ih (fun d hd => h d (List.mem_cons_of_mem c hd))]

theorem wsSep_tail (c : Char) (l : List Char) (h : wsSep (c :: l) = true) :
    wsSep l = true := by
  cases l with
  | nil => rfl
  | cons c2 cs =>
    simp only [wsSep, Bool.and_eq_true] at h
    exact h.2

theorem wsSep_cons_notWs (c : Char) (l : List Char) (hc : isWsChar c = false)
    (h : wsSep l = true) : wsSep (c :: l) = true := by
  cases l with
  | nil => simp [wsSep, hc]
  | cons c2 cs =>
    simp only [wsSep, Bool.and_eq_true]
    exact ⟨by simp [hc], h⟩

theorem collapse_head_notWs : ∀ l : List Char, ∀ c : Char, ∀ cs : List Char,
    collapseGo true l = c :: cs → isWsChar c = false := by
  intro l
  induction l with
  | nil => intro c cs h; cases h
  | cons d ds ih =>
    intro c cs h
    rw [collapseGo] at h
    by_cases hws : isWsChar d
    · rw [if_pos hws] at h
      exact ih c cs h
    · rw [if_neg hws] at h
      injection h with h1 _
      simpa [← h1] using hws

theorem collapse_wsSep : ∀ l : List Char,
    wsSep (collapseGo false l) = true ∧ wsSep (collapseGo true l) = true := by
  intro l
  induction l with
  | nil => exact ⟨rfl, rfl⟩
  | cons c cs ih =>
    by_cases hws : isWsChar c
    · constructor
      · rw [collapseGo, if_pos hws]
        rcases hX : collapseGo true cs with _ | ⟨d, ds⟩
        · decide
        · simp only [wsSep, Bool.and_eq_true]
          refine ⟨?_, hX ▸ ih.2⟩
          have hd : isWsChar d = false := collapse_head_notWs cs d ds hX
          simp [hd]
      · rw [collapseGo, if_pos hws]
        exact ih.2
    · constructor
      · rw [collapseGo, if_neg hws]
        exact wsSep_cons_notWs _ _ (by simp [hws]) ih.1
      · rw [collapseGo, if_neg hws]
        exact wsSep_cons_notWs _ _ (by simp [hws]) ih.1

theorem collapse_id_aux : ∀ l : List Char, wsSep l = true →
    collapseGo false l = l ∧
      (∀ c : Char, ∀ cs : List Char, l = c :: cs → isWsChar c = false →
        collapseGo true l = l) := by
  intro l
  induction l with
  | nil => intro _; exact ⟨rfl, fun c cs h => by cases h⟩
  | cons c cs ih =>
    intro h
    have hcs : wsSep cs = true := wsSep_tail c cs h
    by_cases hws : isWsChar c
    · constructor
      · rw [collapseGo, if_pos hws]
        cases cs with
        | nil =>
          have hsp : c = ' ' := by simpa [wsSep, hws] using h
          rw [hsp]
          rfl
        | cons c2 cs2 =>
          have hpair : c = ' ' ∧ isWsChar c2 = false := by
            simp only [wsSep, Bool.and_eq_true] at h
            simpa [hws] using h.1
          rw [(ih hcs).2 c2 cs2 rfl hpair.2, hpair.1]
          simp
      · intro c' cs' heq hfc
        injection heq with h1 _
        rw [← h1] at hfc
        rw [hfc] at hws
        cases hws
    · constructor
      · rw [collapseGo, if_neg hws, (ih hcs).1]
      · intro c' cs' _ _
        rw [collapseGo, if_neg hws, (ih hcs).1]

theorem wsSep_map (f : Char → Char) (hf1 : ∀ c, isWsChar (f c) = isWsChar c)
    (hf2 : ∀ c, isWsChar c = true → f c = c) :
    ∀ l : List Char, wsSep l = true → wsSep (l.map f) = true := by
  intro l
  induction l with
  | nil => intro _; rfl
  | cons c cs ih =>
    intro h
    have hcs := wsSep_tail c cs h
    rw [List.map_cons]
    by_cases hws : isWsChar c
    · have hfc : f c = c := hf2 c hws
      cases cs with
      | nil => simpa [wsSep, hfc] using (by simpa [wsSep] using h : (!isWsChar c || c == ' ') = true)
      | cons c2 cs2 =>
        have hpair : c = ' ' ∧ isWsChar c2 = false := by
          simp only [wsSep, Bool.and_eq_true] at h
          simpa [hws] using h.1
        rw [List.map_cons]
        simp only [wsSep, Bool.and_eq_true]
        constructor
        · have h2 : isWsChar (f c2) = false := by rw [hf1]; exact hpair.2
          rw [hfc, hpair.1]
          simp [h2]
        · have := ih hcs
          rw [List.map_cons] at this
          exact this
    · have hnf : isWsChar (f c) = false := by rw [hf1]; simpa using hws
      exact wsSep_cons_notWs _ _ hnf (ih hcs)

theorem toLower_eq_pct (c : Char) (h : Char.toLower c = '%') : c = '%' := by
  apply char_toNat_inj
  have h2 := congrArg Char.toNat h
  rw [toNat_toLower] at h2
  have h37 : ('%' : Char).toNat = 37 := rfl
  rw [h37] at h2 ⊢
  split at h2 <;> omega

theorem ifmap_ws (a b : Char) (ha : isWsChar a = false) (hb : isWsChar b = false) :
    (∀ c, isWsChar (if c = a then b else c) = isWsChar c) ∧
    (∀ c, isWsChar c = true → (if c = a then b else c) = c) := by
  constructor
  · intro c
    by_cases h : c = a
    · rw [if_pos h, h, ha, hb]
    · rw [if_neg h]
  · intro c hc
    refine if_neg (fun h => ?_)
    rw [h, ha] at hc
    cases hc

/-- The whole idempotence argument for the percent-free case: on such
input the three percent-driven table entries never fire, the three
single-character replacements are plain maps, and a second cleaning pass
changes nothing because the first pass left no uppercase letters, no
whitespace runs, and none of the replaced characters. -/
theorem cleanL_idem_no_pct (l : List Char) (hp : '%' ∉ l) :
    cleanL (cleanL l) = cleanL l := by
  have hL1p : '%' ∉ collapseWs (l.map Char.toLower) := by
    intro hmem
    rcases collapseGo_mem '%' false (l.map Char.toLower) hmem with h | h
    · exact absurd h (by decide)
    · rcases List.mem_map.mp h with ⟨c, hc, hcp⟩
      exact hp (toLower_eq_pct c hcp ▸ hc)
  generalize hL1 : collapseWs (l.map Char.toLower) = L1 at hL1p
  have hwsL1 : wsSep L1 = true := hL1 ▸ (collapse_wsSep (l.map Char.toLower)).1
  generalize hL2 : L1.map (fun c => if c = 'o' then '0' else c) = L2
  generalize hL3 : L2.map (fun c => if c = 'i' then '1' else c) = L3
  generalize hL4 : L3.map (fun c => if c = 'l' then '1' else c) = L4
  have s1 : replaceAll "o".data "0".data L1 = L2 := hL2 ▸ replaceGo_single 'o' '0' L1
  have s2 : replaceAll "i".data "1".data L2 = L3 := hL3 ▸ replaceGo_single 'i' '1' L2
  have s3 : replaceAll "l".data "1".data L3 = L4 := hL4 ▸ replaceGo_single 'l' '1' L3
  have h4o : 'o' ∉ L4 := by
    intro hmem
    rcases mem_ifmap 'l' '1' L3 'o' (hL4 ▸ hmem) with h | ⟨h3, _⟩
    · exact absurd h (by decide)
    · rcases mem_ifmap 'i' '1' L2 'o' (hL3 ▸ h3) with h | ⟨h2, _⟩
      · exact absurd h (by decide)
      · rcases mem_ifmap 'o' '0' L1 'o' (hL2 ▸ h2) with h | ⟨_, hno⟩
        · exact absurd h (by decide)
        · exact hno rfl
  have h4i : 'i' ∉ L4 := by
    intro hmem
    rcases mem_ifmap 'l' '1' L3 'i' (hL4 ▸ hmem) with h | ⟨h3, _⟩
    · exact absurd h (by decide)
    · rcases mem_ifmap 'i' '1' L2 'i' (hL3 ▸ h3) with h | ⟨_, hni⟩
      · exact absurd h (by decide)
      · exact hni rfl
  have h4l : 'l' ∉ L4 := by
    intro hmem
    rcases mem_ifmap 'l' '1' L3 'l' (hL4 ▸ hmem) with h | ⟨_, hnl⟩
    · exact absurd h (by decide)
    · exact hnl rfl
  have h4p : '%' ∉ L4 := by
    intro hmem
    rcases mem_ifmap 'l' '1' L3 '%' (hL4 ▸ hmem) with h | ⟨h3, _⟩
    · exact absurd h (by decide)
    · rcases mem_ifmap 'i' '1' L2 '%' (hL3 ▸ h3) with h | ⟨h2, _⟩
      · exact absurd h (by decide)
      · rcases mem_ifmap 'o' '0' L1 '%' (hL2 ▸ h2) with h | ⟨h1, _⟩
        · exact absurd h (by decide)
        · exact hL1p h1
  have m1 : replaceAll "mg%".data "mg/dl".data L4 = L4 :=
    replaceAll_no_occur _ _ '%' (by decide) L4 h4p
  have m2 : replaceAll "gm%".data "g/dl".data L4 = L4 :=
    replaceAll_no_occur _ _ '%' (by decide) L4 h4p
  have m3 : replaceAll "gm/dl".data "g/dl".data L4 = L4 :=
    replaceAll_no_occur _ _ 'l' (by decide) L4 h4l
  have hfirst : cleanL l = L4 := by
    show applyReplacements cleanReplacements (collapseWs (l.map Char.toLower)) = L4
    rw [hL1]
    show replaceAll "gm/dl".data "g/dl".data (replaceAll "gm%".data "g/dl".data
      (replaceAll "mg%".data "mg/dl".data (replaceAll "l".data "1".data
        (replaceAll "i".data "1".data (replaceAll "o".data "0".data L1))))) = L4
    rw [s1, s2, s3, m1, m2, m3]
  have hlow : L4.map Char.toLower = L4 := by
    refine mapFixed L4 (fun c hc => ?_)
    rcases mem_ifmap 'l' '1' L3 c (hL4 ▸ hc) with rfl | ⟨h3, _⟩
    · decide
    · rcases mem_ifmap 'i' '1' L2 c (hL3 ▸ h3) with rfl | ⟨h2, _⟩
      · decide
      · rcases mem_ifmap 'o' '0' L1 c (hL2 ▸ h2) with rfl | ⟨h1, _⟩
        · decide
        · have h1' : c ∈ collapseWs (l.map Char.toLower) := hL1 ▸ h1
          rcases collapseGo_mem c false (l.map Char.toLower) h1' with rfl | hm
          · decide
          · rcases List.mem_map.mp hm with ⟨d, _, rfl⟩
            exact toLower_idem d
  have hws4 : wsSep L4 = true := by
    have w2 : wsSep L2 = true := hL2 ▸ wsSep_map _
      (ifmap_ws 'o' '0' (by decide) (by decide)).1
      (ifmap_ws 'o' '0' (by decide) (by decide)).2 L1 hwsL1
    have w3 : wsSep L3 = true := hL3 ▸ wsSep_map _
      (ifmap_ws 'i' '1' (by decide) (by decide)).1
      (ifmap_ws 'i' '1' (by decide) (by decide)).2 L2 w2
    exact hL4 ▸ wsSep_map _
      (ifmap_ws 'l' '1' (by decide) (by decide)).1
      (ifmap_ws 'l' '1' (by decide) (by decide)).2 L3 w3
  have e_col : collapseWs L4 = L4 := (collapse_id_aux L4 hws4).1
  have r1 : replaceAll "o".data "0".data L4 = L4 :=
    (replaceGo_single 'o' '0' L4).trans
      (mapFixed L4 (fun c hc => if_neg (fun (h : c = 'o') => h4o (h ▸ hc))))
  have r2 : replaceAll "i".data "1".data L4 = L4 :=
    (replaceGo_single 'i' '1' L4).trans
      (mapFixed L4 (fun c hc => if_neg (fun (h : c = 'i') => h4i (h ▸ hc))))
  have r3 : replaceAll "l".data "1".data L4 = L4 :=
    (replaceGo_single 'l' '1' L4).trans
      (mapFixed L4 (fun c hc => if_neg (fun (h : c = 'l') => h4l (h ▸ hc))))
  have hsecond : cleanL L4 = L4 := by
    show applyReplacements cleanReplacements (collapseWs (L4.map Char.toLower)) = L4
    rw [hlow, e_col]
    show replaceAll "gm/dl".data "g/dl".data (replaceAll "gm%".data "g/dl".data
      (replaceAll "mg%".data "mg/dl".data (replaceAll "l".data "1".data
        (replaceAll "i".data "1".data (replaceAll "o".data "0".data L4))))) = L4
    rw [r1, r2, r3, m1, m2, m3]
  rw [hfirst, hsecond]

/-- C6 counterexample: cleaning the text mg% yields mg/dl, but cleaning
again turns the l introduced by that unit rewrite into 1, so the
normalizer is not idempotent. -/
theorem c6_counterexample :
    _clean_text "mg%" = "mg/dl"
    ∧ _clean_text (_clean_text "mg%") = "mg/d1"
    ∧ _clean_text (_clean_text "mg%") ≠ _clean_text "mg%" := by
  refine ⟨by decide, by decide, by decide⟩

/-- C6 amended: the normalizer is idempotent on every input without a
percent character; on such input no percent-unit rewrite can fire, so the
first pass leaves no uppercase letter, no whitespace run, and none of the
replaced characters, and a second pass changes nothing.  In general
idempotence fails exactly because mg% and gm% reintroduce the letter l. -/
theorem c6_idempotent_no_pct (s : String) (h : '%' ∉ s.data) :
    _clean_text (_clean_text s) = _clean_text s :=
  congrArg String.mk (cleanL_idem_no_pct s.data h)

theorem c6_idempotent_no_pct_witness :
    ('%' ∉ ("Hb: 13.5 g/dl" : String).data)
    ∧ _clean_text (_clean_text "Hb: 13.5 g/dl") = _clean_text "Hb: 13.5 g/dl" :=
  ⟨by decide, c6_idempotent_no_pct "Hb: 13.5 g/dl" (by decide)⟩
